import Mathlib

/-!
Verification of the batch text-to-speech orchestration pipeline
(`src/voice_synthesizer.py`) against its natural-language specification.

The Python source is shallowly embedded: texts are lists of characters,
Python dictionaries become structures, and a Python function that may raise
an exception is embedded as a function into `PyResult`, whose `exn`
constructor carries the exception message.  External effects (the Azure
HTTP calls, the zip library, the filesystem) are passed in as explicit
parameters describing their outcome, so every definition is executable.
-/

/-- Outcome of running a piece of Python code: either a returned value or a
raised exception carrying its message. -/
inductive PyResult (α : Type) where
  | ok : α → PyResult α
  | exn : String → PyResult α
deriving DecidableEq

/-! ## The Chunker (`process_single_file`, lines 186-200)

`f.readlines()` splits a text into lines, every line keeping its trailing
newline (the final line may lack one); concatenating the lines gives back
the text.  The chunking loop then accumulates lines into chunks, flushing
the accumulator whenever appending the next line would push it past the
budget (2500 characters in the source). -/

/-- Model of Python `f.readlines()`: split a character list into lines,
each line keeping its trailing newline character. -/
def readlines : List Char → List (List Char)
  | [] => []
  | c :: rest =>
    if c = '\n' then ['\n'] :: readlines rest
    else
      match readlines rest with
      | [] => [[c]]
      | l :: ls => (c :: l) :: ls

/-- The chunk accumulation loop of `process_single_file` (lines 193-200):
`for line in lines: if len(chunk) + len(line) > budget: chunks.append(chunk);
chunk = ""` then `chunk += line`, with a final `chunks.append(chunk)`.
The accumulator is the second argument. -/
def chunkLoop (budget : Nat) : List (List Char) → List Char → List (List Char)
  | [], chunk => [chunk]
  | line :: rest, chunk =>
    if chunk.length + line.length > budget then
      chunk :: chunkLoop budget rest line
    else
      chunkLoop budget rest (chunk ++ line)

/-- The Chunker: run the accumulation loop on the lines of the input with an
initially empty accumulator.  The source hard-codes `budget = 2500`. -/
def chunker (budget : Nat) (lines : List (List Char)) : List (List Char) :=
  chunkLoop budget lines []

/-- The per-chunk synthesis loop of `process_single_file` (lines 228-231):
`stream = b""` then for every chunk `stream += speak(chunk)`, where `speak`
abstracts wrapping the chunk in SSML and calling the synthesizer.  Bytes are
modelled as natural numbers. -/
def synthesizeChunks (speak : List Char → List Nat) (chunks : List (List Char)) : List Nat :=
  chunks.foldl (fun stream c => stream ++ speak c) []

theorem readlines_flatten (t : List Char) : (readlines t).flatten = t := by
  induction t with
  | nil => rfl
  | cons c rest ih =>
    by_cases h : c = '\n'
    · subst h
      simp [readlines, ih]
    · simp only [readlines, if_neg h]
      cases hr : readlines rest with
      | nil =>
        rw [hr] at ih
        simp at ih
        simp [← ih]
      | cons l ls =>
        rw [hr] at ih
        simpa [List.flatten] using ih

theorem readlines_eq_nil (t : List Char) (h : readlines t = []) : t = [] := by
  have := readlines_flatten t
  rw [h] at this
  simpa using this.symm

theorem readlines_no_newline (t : List Char) (h1 : t ≠ [])
    (h2 : ∀ c ∈ t, c ≠ '\n') : readlines t = [t] := by
  induction t with
  | nil => exact absurd rfl h1
  | cons c rest ih =>
    have hc : c ≠ '\n' := h2 c (List.mem_cons_self c rest)
    simp only [readlines, if_neg hc]
    cases hrest : rest with
    | nil => simp [readlines]
    | cons d rs =>
      rw [← hrest]
      have : readlines rest = [rest] := by
        apply ih
        · rw [hrest]; exact List.cons_ne_nil d rs
        · intro x hx
          exact h2 x (List.mem_cons_of_mem c hx)
      rw [this]

theorem chunkLoop_flatten (budget : Nat) (lines : List (List Char)) (chunk : List Char) :
    (chunkLoop budget lines chunk).flatten = chunk ++ lines.flatten := by
  induction lines generalizing chunk with
  | nil => simp [chunkLoop]
  | cons line rest ih =>
    simp only [chunkLoop]
    split
    · simp [List.flatten, ih line]
    · simp [ih (chunk ++ line), List.flatten]

theorem chunkLoop_ne_nil (budget : Nat) (lines : List (List Char)) (chunk : List Char) :
    chunkLoop budget lines chunk ≠ [] := by
  cases lines with
  | nil => simp [chunkLoop]
  | cons line rest =>
    simp only [chunkLoop]
    split
    · exact List.cons_ne_nil _ _
    · exact chunkLoop_ne_nil budget rest _

theorem chunkLoop_mem (budget : Nat) (lines : List (List Char)) (chunk : List Char)
    (c : List Char) (hc : c ∈ chunkLoop budget lines chunk) :
    c.length ≤ budget ∨ c = chunk ∨ c ∈ lines := by
  induction lines generalizing chunk with
  | nil =>
    simp [chunkLoop] at hc
    exact Or.inr (Or.inl hc)
  | cons line rest ih =>
    simp only [chunkLoop] at hc
    split at hc
    · rcases List.mem_cons.mp hc with h | h
      · exact Or.inr (Or.inl h)
      · rcases ih line h with h1 | h1 | h1
        · exact Or.inl h1
        · exact Or.inr (Or.inr (by simp [h1]))
        · exact Or.inr (Or.inr (List.mem_cons_of_mem line h1))
    · rename_i hle
      rcases ih (chunk ++ line) hc with h1 | h1 | h1
      · exact Or.inl h1
      · refine Or.inl ?_
        rw [h1, List.length_append]
        omega
      · exact Or.inr (Or.inr (List.mem_cons_of_mem line h1))

theorem chunkLoop_partition (budget : Nat) (lines : List (List Char)) (chunk : List Char) :
    ∃ g : List (List Char), ∃ gs : List (List (List Char)),
      chunkLoop budget lines chunk = (chunk ++ g.flatten) :: gs.map List.flatten ∧
      g ++ gs.flatten = lines := by
  induction lines generalizing chunk with
  | nil => exact ⟨[], [], by simp [chunkLoop], by simp⟩
  | cons line rest ih =>
    simp only [chunkLoop]
    split
    · obtain ⟨g, gs, heq, hpart⟩ := ih line
      refine ⟨[], (line :: g) :: gs, ?_, ?_⟩
      · simp [heq, List.flatten]
      · simp [List.flatten]
        exact hpart
    · obtain ⟨g, gs, heq, hpart⟩ := ih (chunk ++ line)
      refine ⟨line :: g, gs, ?_, ?_⟩
      · simp [heq, List.flatten]
      · simp
        exact hpart

theorem chunkLoop_singleton (budget : Nat) (lines : List (List Char)) (chunk c : List Char)
    (hne : lines ≠ []) (h : chunkLoop budget lines chunk = [c]) : c.length ≤ budget := by
  induction lines generalizing chunk with
  | nil => exact absurd rfl hne
  | cons line rest ih =>
    simp only [chunkLoop] at h
    split at h
    · have := List.cons.injEq chunk (chunkLoop budget rest line) c [] ▸ h
      simp at this
      exact absurd this.2 (chunkLoop_ne_nil budget rest line)
    · rename_i hle
      cases hrest : rest with
      | nil =>
        rw [hrest] at h
        simp [chunkLoop] at h
        rw [← h]
        simp only [List.length_append]
        omega
      | cons d rs =>
        apply ih (chunk ++ line)
        · rw [hrest]; exact List.cons_ne_nil d rs
        · exact h

/-- C1: for every input text and every chunk budget, the Chunker produces an
ordered finite list of chunks such that (a) concatenating the chunks in
order reproduces the text exactly, (b) every chunk either fits the budget or
is a single line of the text that alone exceeds the budget, and (c) the
chunks partition the line list, so chunk boundaries occur only at line
boundaries. -/
theorem chunker_roundtrip_bound_lineboundaries (budget : Nat) (t : List Char) :
    (chunker budget (readlines t)).flatten = t ∧
    (∀ c ∈ chunker budget (readlines t),
      c.length ≤ budget ∨ (c ∈ readlines t ∧ budget < c.length)) ∧
    (∃ p : List (List (List Char)),
      p.flatten = readlines t ∧ chunker budget (readlines t) = p.map List.flatten) := by
  refine ⟨?_, ?_, ?_⟩
  · rw [chunker, chunkLoop_flatten]
    simpa using readlines_flatten t
  · intro c hc
    rcases chunkLoop_mem budget (readlines t) [] c hc with h | h | h
    · exact Or.inl h
    · exact Or.inl (by simp [h])
    · by_cases hlen : c.length ≤ budget
      · exact Or.inl hlen
      · exact Or.inr ⟨h, by omega⟩
  · obtain ⟨g, gs, heq, hpart⟩ := chunkLoop_partition budget (readlines t) []
    refine ⟨g :: gs, ?_, ?_⟩
    · simpa [List.flatten] using hpart
    · simpa [chunker, List.flatten] using heq

/-! ## The Job Submitter (`submit_single_file`, lines 27-65)

The HTTP call is abstracted by its observable outcome: the response status
code, the response `id` field and the response text.  On a status below 400
the function returns the success dictionary; otherwise it fills the failure
fields of `res` and then, instead of returning `res`, raises an exception
(line 65). -/

/-- The submission outcome dictionary `res` built by `submit_single_file`:
`status`, `message` and the optional `job_id`. -/
structure SubmissionRes where
  status : Nat
  message : String
  job_id : Option String
deriving DecidableEq

/-- Model of `submit_single_file`: on `status_code < 400` return the success
dictionary with the response id; otherwise set the failure fields and raise
`Exception(f"Error processing ...")` (line 65), so the failure dictionary is
never returned. -/
def submit_single_file (input_fn : String) (status_code : Nat)
    (response_id : String) (response_text : String) : PyResult SubmissionRes :=
  if status_code < 400 then
    .ok ⟨0, "Success", some response_id⟩
  else
    .exn ("Error processing " ++ input_fn ++ ": Code " ++ toString status_code ++
      ", " ++ "Error submitting " ++ input_fn ++ " to batch synthesis: " ++ response_text)

/-- The submission stage over a list of files (debug path, lines 306-317;
the thread-pool path propagates the first raised exception the same way when
the result list is forced): each file is described by its name and the
outcome of its HTTP call.  A raised exception aborts the whole loop. -/
def submitAll : List (String × Nat × String × String) → PyResult (List SubmissionRes)
  | [] => .ok []
  | (fn, code, rid, text) :: rest =>
    match submit_single_file fn code rid text with
    | .exn e => .exn e
    | .ok r =>
      match submitAll rest with
      | .exn e => .exn e
      | .ok rs => .ok (r :: rs)

/-- The partition loop of `__main__` (lines 331-338).  For each outcome
`item`: when `item['status'] != 0` the code executes
`failed_submissions.append(res['message'])`, but `res` is the whole outcome
list, so indexing it with the string key raises `TypeError`; when the status
is zero, `item['job_id']` is added to the successful submissions entering
the polling phase.  The accumulators are the failed-message list and the
job-id list. -/
def collectLoop : List SubmissionRes → List String → List String →
    PyResult (List String × List String)
  | [], failed, succ => .ok (failed, succ)
  | item :: rest, failed, succ =>
    if item.status ≠ 0 then
      .exn "TypeError: list indices must be integers or slices, not str"
    else
      collectLoop rest failed (succ ++ [item.job_id.getD ""])

/-- The partition of submission outcomes into failed and successful
submissions, started with both accumulators empty. -/
def collectSubmissions (res : List SubmissionRes) : PyResult (List String × List String) :=
  collectLoop res [] []

/-- The whole submission stage: submit every file, then partition the
outcome list.  A raised exception in either part aborts the run. -/
def submissionStage (files : List (String × Nat × String × String)) :
    PyResult (List String × List String) :=
  match submitAll files with
  | .exn e => .exn e
  | .ok res => collectSubmissions res

/-- C4: `submit_single_file` does not turn a non-success remote status into
a returned SubmissionOutcome failure.  It fills the failure dictionary and
then raises an exception carrying the status code and message, so the fault
does cross the item boundary (the claimed behaviour is the spec's intent,
designated in the spec as the corrected form of a latent source bug). -/
theorem submit_raises_on_error_status (input_fn response_id response_text : String)
    (status_code : Nat) (h : 400 ≤ status_code) :
    submit_single_file input_fn status_code response_id response_text =
      .exn ("Error processing " ++ input_fn ++ ": Code " ++ toString status_code ++
        ", " ++ "Error submitting " ++ input_fn ++ " to batch synthesis: " ++
        response_text) := by
  rw [submit_single_file, if_neg (by omega)]

theorem submit_raises_on_error_status_witness :
    submit_single_file "a.txt" 400 "" "Bad Request" =
      .exn "Error processing a.txt: Code 400, Error submitting a.txt to batch synthesis: Bad Request" := by
  rw [submit_raises_on_error_status "a.txt" "" "Bad Request" 400 (by omega)]
  rfl

/-- C2: evaluation of the submission stage on a batch of N = 2 units of
which K = 1 fails submission.  Instead of one Job entering polling and the
failure appearing in the failure report with its own message, the raised
exception from `submit_single_file` aborts the whole stage; and even a
failure outcome that did reach the partition loop would crash it, because
the loop indexes the outcome list `res` with a string key instead of
reading `item['message']` (a TypeError).  The second conjunct shows the
partition loop crashing on a directly supplied failure outcome, and the
third shows the all-success path working. -/
theorem submission_partition_crashes_on_failure :
    submissionStage [("a.txt", 201, "job-1", "Created"), ("b.txt", 400, "", "Bad Request")] =
      .exn "Error processing b.txt: Code 400, Error submitting b.txt to batch synthesis: Bad Request" ∧
    collectSubmissions [⟨400, "Error submitting b.txt to batch synthesis: Bad Request", none⟩] =
      .exn "TypeError: list indices must be integers or slices, not str" ∧
    collectSubmissions [⟨0, "Success", some "job-1"⟩, ⟨0, "Success", some "job-2"⟩] =
      .ok ([], ["job-1", "job-2"]) := by
  refine ⟨?_, ?_, ?_⟩ <;> rfl

/-! ## The Status Poller and polling loop (`__main__`, lines 353-388)

A polled job is its id, its last observed status string and whether a
download task has already been submitted for it (`'download_task' in
successful_submissions[job_id]`).  The remote service is abstracted by an
oracle `poll` giving the status string that `check_job_status` returns for
a job id; re-polling replaces the whole dictionary entry with a fresh one
that has no `download_task` key.  One iteration of the `while True` body is
`pollCycle`; the loop breaks after a cycle in which `n_success_jobs`
equalled the number of jobs, and is given explicit fuel so that
non-termination is observable as `none`. -/

/-- One polled job: its id, last observed status and whether a download
task has been dispatched for it. -/
structure JobState where
  job_id : String
  status : String
  hasDownloadTask : Bool
deriving DecidableEq

/-- The per-job body of the polling cycle (lines 359-379): a job already
`"Succeeded"` keeps or gains its download task; any other status is
re-polled, the fresh `check_job_status` dictionary carrying no download
task. -/
def cycleJob (poll : String → String) (j : JobState) : JobState :=
  if j.status = "Succeeded" then
    if j.hasDownloadTask then j else ⟨j.job_id, j.status, true⟩
  else
    ⟨j.job_id, poll j.job_id, false⟩

/-- One full cycle of the polling loop: every job is processed once and
`n_success_jobs` counts the jobs whose status was `"Succeeded"` when
checked (lines 362-375 increment it only in the `"Succeeded"` branch). -/
def pollCycle (poll : String → String) (jobs : List JobState) : List JobState × Nat :=
  (jobs.map (cycleJob poll),
   (jobs.filter (fun j => j.status = "Succeeded")).length)

/-- The `while True` polling loop (lines 354-388) with explicit fuel: run a
cycle, break when `n_success_jobs == len(successful_submissions)`, else
iterate.  `none` means the loop was still running when the fuel ran out. -/
def pollLoop (poll : String → String) : Nat → List JobState → Option (List JobState)
  | 0, _ => none
  | fuel + 1, jobs =>
    let cycled := pollCycle poll jobs
    if cycled.2 = jobs.length then some cycled.1 else pollLoop poll fuel cycled.1

theorem filter_length_of_all {α : Type} (p : α → Bool) (l : List α)
    (h : ∀ a ∈ l, p a = true) : (l.filter p).length = l.length := by
  induction l with
  | nil => rfl
  | cons a rest ih =>
    have ha : p a = true := h a (List.mem_cons_self a rest)
    simp [List.filter, ha, ih fun x hx => h x (List.mem_cons_of_mem a hx)]

theorem filter_length_lt_of_mem {α : Type} (p : α → Bool) (l : List α) (a : α)
    (ha : a ∈ l) (hpa : p a = false) : (l.filter p).length < l.length := by
  induction l with
  | nil => cases ha
  | cons b rest ih =>
    rcases List.mem_cons.mp ha with h | h
    · subst h
      simp only [List.filter, hpa]
      have := List.length_filter_le p rest
      simp only [List.length_cons]
      omega
    · have hrest := ih h
      cases hpb : p b <;> simp [List.filter, hpb, List.length_cons] <;> omega

theorem cycleJob_keeps_failed (poll : String → String) (j : JobState)
    (hs : j.status = "Failed") (hp : poll j.job_id = "Failed") :
    cycleJob poll j = ⟨j.job_id, "Failed", false⟩ := by
  rw [cycleJob, if_neg (by rw [hs]; decide), hp]

theorem pollLoop_none_of_failed (poll : String → String) (fuel : Nat)
    (jobs : List JobState) (j : JobState) (hj : j ∈ jobs)
    (hs : j.status = "Failed") (hp : poll j.job_id = "Failed") :
    pollLoop poll fuel jobs = none := by
  induction fuel generalizing jobs j with
  | zero => rfl
  | succ n ih =>
    have hcount : (pollCycle poll jobs).2 ≠ jobs.length := by
      have : (jobs.filter (fun k => k.status = "Succeeded")).length < jobs.length := by
        apply filter_length_lt_of_mem _ _ j hj
        simp [hs]
      simp only [pollCycle]
      omega
    rw [pollLoop, if_neg hcount]
    apply ih (pollCycle poll jobs).1 ⟨j.job_id, "Failed", false⟩
    · have : cycleJob poll j = ⟨j.job_id, "Failed", false⟩ := cycleJob_keeps_failed poll j hs hp
      simpa [pollCycle, this] using List.mem_map_of_mem (cycleJob poll) hj
    · rfl
    · exact hp

/-- C3 counterexample: a batch whose single Job is in the terminal remote
status `Failed` does not stop the polling loop.  The job is terminal in the
spec's sense (first conjunct), yet the loop is still running after 100
cycles with the remote service answering `Failed` every time, because the
break condition at line 382 counts only `"Succeeded"` jobs. -/
theorem polling_loop_ignores_failed_terminal :
    (∀ j ∈ [JobState.mk "j1" "Failed" false],
      j.status = "Succeeded" ∨ j.status = "Failed") ∧
    pollLoop (fun _ => "Failed") 100 [JobState.mk "j1" "Failed" false] = none := by
  constructor
  · decide
  · exact pollLoop_none_of_failed (fun _ => "Failed") 100 _ ⟨"j1", "Failed", false⟩
      (List.mem_singleton.mpr rfl) rfl rfl

/-- C3 amended: the polling loop terminates as soon as every polled Job has
status `Succeeded` (in one cycle, first conjunct); a Job in the remote
status `Failed` is not treated as terminal: as long as the remote service
keeps answering `Failed` for it, the loop never stops (second conjunct),
for any amount of fuel. -/
theorem polling_loop_stops_iff_all_succeeded (poll : String → String)
    (jobs : List JobState) :
    ((∀ j ∈ jobs, j.status = "Succeeded") →
      pollLoop poll 1 jobs = some (pollCycle poll jobs).1) ∧
    (∀ j ∈ jobs, j.status = "Failed" → poll j.job_id = "Failed" →
      ∀ fuel, pollLoop poll fuel jobs = none) := by
  constructor
  · intro hall
    have : (pollCycle poll jobs).2 = jobs.length := by
      simp only [pollCycle]
      apply filter_length_of_all
      intro j hj
      simp [hall j hj]
    rw [pollLoop, if_pos this]
  · intro j hj hs hp fuel
    exact pollLoop_none_of_failed poll fuel jobs j hj hs hp

theorem polling_loop_stops_iff_all_succeeded_witness :
    pollLoop (fun _ => "Running") 1 [JobState.mk "a" "Succeeded" false] =
      some (pollCycle (fun _ => "Running") [JobState.mk "a" "Succeeded" false]).1 ∧
    pollLoop (fun _ => "Failed") 7 [JobState.mk "b" "Failed" false] = none := by
  constructor
  · exact (polling_loop_stops_iff_all_succeeded (fun _ => "Running") _).1 (by decide)
  · exact (polling_loop_stops_iff_all_succeeded (fun _ => "Failed") _).2
      ⟨"b", "Failed", false⟩ (List.mem_singleton.mpr rfl) rfl rfl 7

/-- C5 counterexample: with two polled Jobs, one already `Succeeded` and one
still `Running`, a single cycle of the polling loop dispatches the download
task for the succeeded Job (first conjunct) although a Job is still
non-terminal (second conjunct) and the loop has not converged (third
conjunct: the cycle's success count is below the job count, so the loop
continues).  Downloads are therefore dispatched before the polling loop has
fully converged, inside the loop itself (lines 367-374). -/
theorem download_dispatched_before_convergence :
    (∃ j ∈ (pollCycle (fun _ => "Running")
        [JobState.mk "a" "Succeeded" false, JobState.mk "b" "Running" false]).1,
      j.hasDownloadTask = true) ∧
    (∃ k ∈ (pollCycle (fun _ => "Running")
        [JobState.mk "a" "Succeeded" false, JobState.mk "b" "Running" false]).1,
      k.status ≠ "Succeeded" ∧ k.status ≠ "Failed") ∧
    (pollCycle (fun _ => "Running")
      [JobState.mk "a" "Succeeded" false, JobState.mk "b" "Running" false]).2 ≠
      [JobState.mk "a" "Succeeded" false, JobState.mk "b" "Running" false].length := by
  refine ⟨⟨⟨"a", "Succeeded", true⟩, by decide, rfl⟩,
    ⟨⟨"b", "Running", false⟩, by decide, by decide⟩, by decide⟩

theorem cycleJob_task (poll : String → String) (j : JobState) :
    (cycleJob poll j).hasDownloadTask = decide (j.status = "Succeeded") := by
  rw [cycleJob]
  by_cases h : j.status = "Succeeded"
  · rw [if_pos h]
    cases ht : j.hasDownloadTask <;> simp [h, ht]
  · rw [if_neg h]
    simp [h]

/-- C5 amended: downloads are dispatched incrementally inside the polling
loop, not after a barrier: after any one cycle, exactly those Jobs whose
status was `Succeeded` at the start of the cycle carry a dispatched
download task, regardless of whether sibling Jobs are still non-terminal;
only the final wait on the download pool happens after the loop converges. -/
theorem download_dispatch_tracks_succeeded (poll : String → String)
    (jobs : List JobState) :
    (pollCycle poll jobs).1.map (fun j => j.hasDownloadTask) =
      jobs.map (fun j => decide (j.status = "Succeeded")) := by
  simp only [pollCycle, List.map_map]
  induction jobs with
  | nil => rfl
  | cons j rest ih =>
    simp only [List.map_cons, Function.comp_apply, cycleJob_task, ih]

/-! ## The Result Downloader (`unzip_file` lines 94-126, `download_file`
lines 129-174)

The HTTP fetch is abstracted by its status code and response text; the
whole `try` block of `unzip_file` (zip library and filesystem operations)
is abstracted by a `PyResult Unit`, its `exn` payload being the traceback
text the `except` branch formats into the failure message.  `download_file`
additionally reports (second component) whether the unzip-and-rename step
was invoked, the observable side effect the claims are about.  The path
helpers model the pieces of `os.path` the source uses. -/

/-- The `res` dictionary returned by `unzip_file` and `download_file`:
a status code and a message. -/
structure PyRes where
  status : Nat
  message : String
deriving DecidableEq

/-- Model of the extension component of `os.path.splitext`: the suffix
starting at the last dot of the final path component, empty when that
component has no dot. -/
def splitextExt (s : List Char) : List Char :=
  let r := s.reverse
  let pre := r.takeWhile (fun c => c ≠ '.' && c ≠ '/')
  match r.drop pre.length with
  | '.' :: _ => '.' :: pre.reverse
  | _ => []

/-- Model of `os.path.basename`: the part after the last slash. -/
def basenameChars (s : List Char) : List Char :=
  (s.reverse.takeWhile (fun c => c ≠ '/')).reverse

/-- Model of the root component of `os.path.splitext`: the path without its
extension. -/
def splitextRoot (s : List Char) : List Char :=
  s.take (s.length - (splitextExt s).length)

/-- Line 142: the output extension is taken from the artifact uri with its
query string stripped, `os.path.splitext(uri.split("?", 1)[0])[1]`. -/
def uriExt (uri : String) : List Char :=
  splitextExt (uri.data.takeWhile (fun c => c ≠ '?'))

/-- Lines 141-143: the derived output file name
`os.path.join(output_dir, f"<base>_voice_synthesis<out_ext>")` with `base`
the input file's basename without extension. -/
def outFileName (uri input_fn output_dir : String) : String :=
  ⟨output_dir.data ++ '/' :: (splitextRoot (basenameChars input_fn.data) ++
    ("_voice_synthesis".data ++ uriExt uri))⟩

/-- Model of `unzip_file` (lines 94-126): the whole body runs inside
`try`/`except`, so a raised error from the zip library or the filesystem is
caught and converted into the status-2 failure dictionary carrying the
traceback; nothing is propagated. -/
def unzip_file (zip_fn output_dir : String) (tryResult : PyResult Unit) : PyRes :=
  match tryResult with
  | .ok _ => ⟨0, "Success"⟩
  | .exn tb => ⟨2, "Error unzipping " ++ zip_fn ++ " to " ++ output_dir ++ ": " ++ tb⟩

/-- Model of `download_file` (lines 129-174).  On a fetch status below 400
the artifact is saved under the derived name; if unzipping was not skipped
and the artifact extension is `.zip`, `unzip_file` runs and its failure
dictionary is returned as the download's own outcome (lines 165-168).  On a
fetch status of 400 or above the failure dictionary with the download error
message is returned.  The second component records whether the
unzip-and-rename step was invoked. -/
def download_file (job_id uri input_fn output_dir : String) (skip_unzip : Bool)
    (status_code : Nat) (request_text : String) (unzipTry : PyResult Unit) :
    PyRes × Bool :=
  if status_code < 400 then
    if skip_unzip = false ∧ uriExt uri = ".zip".data then
      let u := unzip_file (outFileName uri input_fn output_dir) output_dir unzipTry
      if u.status ≠ 0 then (u, true) else (⟨0, "Success"⟩, true)
    else (⟨0, "Success"⟩, false)
  else
    (⟨status_code, "Error downloading job " ++ job_id ++ " from " ++ uri ++ " to " ++
      outFileName uri input_fn output_dir ++ ": " ++ request_text⟩, false)

/-- The download pool: each dispatched task computes `download_file` on its
own arguments, independently of its siblings. -/
def runDownloads (tasks : List (String × String × String × String × Bool ×
    Nat × String × PyResult Unit)) : List (PyRes × Bool) :=
  tasks.map (fun t => download_file t.1 t.2.1 t.2.2.1 t.2.2.2.1 t.2.2.2.2.1
    t.2.2.2.2.2.1 t.2.2.2.2.2.2.1 t.2.2.2.2.2.2.2)

/-- C8: an archive-handling failure (the `unzip_file` try block raising,
e.g. on a corrupt archive or a filesystem error) is caught and returned as
the download's own failure outcome — the status-2 dictionary carrying the
error message — never propagated as a raised fault: `download_file` is a
total function into outcome dictionaries, and every sibling download task
in the pool still computes its own outcome from its own arguments (second
conjunct). -/
theorem unzip_failure_returned_as_outcome (job_id uri input_fn output_dir
    request_text tb : String) (status_code : Nat) (h1 : status_code < 400)
    (h2 : uriExt uri = ".zip".data)
    (rest : List (String × String × String × String × Bool × Nat × String ×
      PyResult Unit)) :
    download_file job_id uri input_fn output_dir false status_code request_text
        (.exn tb) =
      (⟨2, "Error unzipping " ++ outFileName uri input_fn output_dir ++ " to " ++
        output_dir ++ ": " ++ tb⟩, true) ∧
    runDownloads ((job_id, uri, input_fn, output_dir, false, status_code,
        request_text, .exn tb) :: rest) =
      download_file job_id uri input_fn output_dir false status_code request_text
        (.exn tb) :: runDownloads rest := by
  constructor
  · rw [download_file, if_pos h1, if_pos ⟨rfl, h2⟩]
    rfl
  · rfl

theorem unzip_failure_returned_as_outcome_witness :
    download_file "j1" "https://host/out.zip?st=x" "dir/b.txt" "_output" false 200
        "" (.exn "boom") =
      (⟨2, "Error unzipping _output/b_voice_synthesis.zip to _output: boom"⟩, true) := by
  rw [(unzip_failure_returned_as_outcome "j1" "https://host/out.zip?st=x" "dir/b.txt"
    "_output" "" "boom" 200 (by omega) (by decide) []).1]
  rfl

/-- The command-line arguments the batch download dispatch reads. -/
structure Args where
  output : String
  debug : Bool
  no_unzip : Bool
deriving DecidableEq

/-- The Coordinator's download dispatch (lines 367-374):
`executor.submit(download_file, job_id, uri, input_fn, args.output,
args.debug)` passes `args.debug` as the fifth positional argument of
`download_file`, which is `skip_unzip`; `args.no_unzip` is not passed. -/
def dispatchDownload (args : Args) (job_id uri input_fn : String)
    (status_code : Nat) (request_text : String) (unzipTry : PyResult Unit) :
    PyRes × Bool :=
  download_file job_id uri input_fn args.output args.debug status_code
    request_text unzipTry

/-- C9: the batch download dispatch binds the debug flag to
`download_file`'s `skip_unzip` parameter, so for a successfully fetched
artifact the unzip-and-rename step runs exactly when debug mode is disabled
and the artifact is a `.zip` (first conjunct), and the `no_unzip`
command-line option never affects a batch download (second conjunct). -/
theorem dispatch_binds_debug_to_skip_flag (args : Args) (job_id uri input_fn
    request_text : String) (status_code : Nat) (unzipTry : PyResult Unit)
    (h : status_code < 400) :
    ((dispatchDownload args job_id uri input_fn status_code request_text
        unzipTry).2 = true ↔
      (args.debug = false ∧ uriExt uri = ".zip".data)) ∧
    (∀ b : Bool,
      dispatchDownload ⟨args.output, args.debug, b⟩ job_id uri input_fn
          status_code request_text unzipTry =
        dispatchDownload args job_id uri input_fn status_code request_text
          unzipTry) := by
  constructor
  · rw [dispatchDownload, download_file, if_pos h]
    by_cases hz : args.debug = false ∧ uriExt uri = ".zip".data
    · rw [if_pos hz]
      constructor
      · intro _; exact hz
      · intro _
        by_cases hu : (unzip_file (outFileName uri input_fn args.output)
            args.output unzipTry).status ≠ 0 <;> simp [hu]
    · rw [if_neg hz]
      simpa using hz
  · intro b
    rfl

theorem dispatch_binds_debug_to_skip_flag_witness :
    ((dispatchDownload ⟨"_output", false, true⟩ "j1" "https://host/a.zip?s=1"
        "in/a.txt" 200 "" (.ok ())).2 = true ↔
      (false = false ∧ uriExt "https://host/a.zip?s=1" = ".zip".data)) ∧
    (∀ b : Bool,
      dispatchDownload ⟨"_output", false, b⟩ "j1" "https://host/a.zip?s=1"
          "in/a.txt" 200 "" (.ok ()) =
        dispatchDownload ⟨"_output", false, true⟩ "j1" "https://host/a.zip?s=1"
          "in/a.txt" 200 "" (.ok ())) :=
  dispatch_binds_debug_to_skip_flag ⟨"_output", false, true⟩ "j1"
    "https://host/a.zip?s=1" "in/a.txt" "" 200 (.ok ()) (by omega)

/-! ## The download wait and process exit (`__main__`, lines 396-408 and 441)

`wait(download_tasks, timeout=THREADPOOL_TIMEOUT, ...)` yields the sets of
unfinished and finished tasks, abstracted here by the number of unfinished
tasks and the list of finished tasks' outcome dictionaries.  A positive
unfinished count prints the fixed timeout message and exits 2; otherwise
the first finished task with a non-zero status prints its message and exits
with that status; otherwise the success summary is printed and the process
falls through to `exit(0)` at line 441. -/

/-- The timeout report printed at line 399: a fixed string mentioning the
`THREADPOOL_TIMEOUT` constant (900) and nothing else. -/
def timeoutMessage : String :=
  "Download task timed out after 900 seconds."

/-- The success summary printed at line 408. -/
def successMessage (n : Nat) (input output : String) : String :=
  "Successfully generated and downloaded " ++ toString n ++
    " voice syntheses from '" ++ input ++ "', outputs in '" ++ output ++ "' directory."

/-- The scan of lines 402-406: the first finished download outcome whose
status is non-zero, if any. -/
def firstFailure : List PyRes → Option PyRes
  | [] => none
  | r :: rest => if r.status ≠ 0 then some r else firstFailure rest

/-- The exit code and final printed line of the download-wait phase
(lines 396-408 and the `exit(0)` at 441), as a function of the number of
unfinished tasks at the timeout and the finished outcomes. -/
def batchExit (not_done : Nat) (done : List PyRes) (n_tasks : Nat)
    (input output : String) : Nat × String :=
  if 0 < not_done then (2, timeoutMessage)
  else
    match firstFailure done with
    | some r => (r.status, r.message)
    | none => (0, successMessage n_tasks input output)

theorem firstFailure_none_iff (done : List PyRes) :
    firstFailure done = none ↔ ∀ r ∈ done, r.status = 0 := by
  induction done with
  | nil => simp [firstFailure]
  | cons r rest ih =>
    by_cases h : r.status ≠ 0
    · simp [firstFailure, h]
    · simp only [firstFailure, if_neg h, ih, List.mem_cons]
      constructor
      · intro hall s hs
        rcases hs with hs | hs
        · subst hs; omega
        · exact hall s hs
      · intro hall s hs
        exact hall s (Or.inr hs)

theorem firstFailure_some (done : List PyRes) (r : PyRes)
    (h : firstFailure done = some r) : r ∈ done ∧ r.status ≠ 0 := by
  induction done with
  | nil => cases h
  | cons s rest ih =>
    simp only [firstFailure] at h
    split at h
    · rename_i hs
      injection h with h2
      subst h2
      exact ⟨List.mem_cons_self s rest, hs⟩
    · obtain ⟨hmem, hst⟩ := ih h
      exact ⟨List.mem_cons_of_mem s hmem, hst⟩

/-- C6 counterexample: a download-phase timeout with 3 items still
outstanding exits non-zero (code 2), but the timeout report is a fixed
string that does not include the count of items still outstanding: the
character `3` does not occur in it at all, and the very same report is
printed when only 1 item is outstanding. -/
theorem timeout_report_lacks_outstanding_count :
    (batchExit 3 [] 5 "in" "out").1 = 2 ∧
    (batchExit 3 [] 5 "in" "out").2 = timeoutMessage ∧
    '3' ∉ timeoutMessage.data ∧
    (batchExit 3 [] 5 "in" "out").2 = (batchExit 1 [] 5 "in" "out").2 := by
  refine ⟨rfl, rfl, by decide, rfl⟩

/-- C6 amended: the download-wait phase exits 0 exactly when no download
task was left unfinished at the timeout and every finished download
reported status 0; any failed download exits with that download's non-zero
status and a timeout exits 2 — but the timeout report is the fixed message
naming the 900-second limit, without the count of items still
outstanding (it is the same string whatever the count).  A failed
submission never reaches this phase: it aborts the run earlier with a
raised exception (see the C2 and C4 theorems). -/
theorem batch_exit_zero_iff_downloads_clean (not_done : Nat) (done : List PyRes)
    (n_tasks : Nat) (input output : String) :
    ((batchExit not_done done n_tasks input output).1 = 0 ↔
      (not_done = 0 ∧ ∀ r ∈ done, r.status = 0)) ∧
    (0 < not_done →
      (batchExit not_done done n_tasks input output).2 = timeoutMessage ∧
      ∀ m : Nat, 0 < m →
        (batchExit m done n_tasks input output).2 =
          (batchExit not_done done n_tasks input output).2) := by
  constructor
  · by_cases hn : 0 < not_done
    · rw [batchExit, if_pos hn]
      constructor
      · intro h; cases h
      · intro ⟨h0, _⟩; omega
    · rw [batchExit, if_neg hn]
      cases hf : firstFailure done with
      | none =>
        simp only []
        constructor
        · intro _
          exact ⟨by omega, (firstFailure_none_iff done).mp hf⟩
        · intro _; trivial
      | some r =>
        obtain ⟨hmem, hst⟩ := firstFailure_some done r hf
        simp only []
        constructor
        · intro h; exact absurd h hst
        · intro ⟨_, hall⟩
          exact absurd (hall r hmem) hst
  · intro hn
    refine ⟨by rw [batchExit, if_pos hn], ?_⟩
    intro m hm
    rw [batchExit, if_pos hm, batchExit, if_pos hn]

theorem batch_exit_zero_iff_downloads_clean_witness :
    ((batchExit 0 [⟨0, "Success"⟩] 1 "in" "out").1 = 0 ↔
      (0 = 0 ∧ ∀ r ∈ [PyRes.mk 0 "Success"], r.status = 0)) ∧
    (batchExit 1 [] 5 "in" "out").2 = timeoutMessage := by
  constructor
  · exact (batch_exit_zero_iff_downloads_clean 0 [⟨0, "Success"⟩] 1 "in" "out").1
  · exact ((batch_exit_zero_iff_downloads_clean 1 [] 5 "in" "out").2 (by omega)).1

/-! ## Chunker scenario claims (C7, C10) -/

theorem chunker_single_oversized (budget : Nat) (l : List Char)
    (h : budget < l.length) : chunker budget [l] = [[], l] := by
  simp only [chunker, chunkLoop, List.length_nil, Nat.zero_add]
  rw [if_pos h]

/-- C7 counterexample: a 6,000-character input consisting of a single line
is a 6,000-character input for which the Chunker with the 2,500-character
budget yields 2 chunks (the flushed empty accumulator and the whole
oversized line), not 3. -/
theorem single_line_6000_input_two_chunks :
    (List.replicate 6000 'a').length = 6000 ∧
    (chunker 2500 (readlines (List.replicate 6000 'a'))).length = 2 ∧
    (chunker 2500 (readlines (List.replicate 6000 'a'))).length ≠ 3 := by
  have hnn : ∀ c ∈ List.replicate 6000 'a', c ≠ '\n' := by
    intro c hc
    rw [List.eq_of_mem_replicate hc]
    decide
  have hne : List.replicate 6000 'a' ≠ [] := by
    intro hcon
    have h6 := congrArg List.length hcon
    rw [List.length_replicate, List.length_nil] at h6
    omega
  have hr : readlines (List.replicate 6000 'a') = [List.replicate 6000 'a'] :=
    readlines_no_newline _ hne hnn
  have hch : chunker 2500 (readlines (List.replicate 6000 'a')) =
      [[], List.replicate 6000 'a'] := by
    rw [hr]
    exact chunker_single_oversized 2500 _ (by rw [List.length_replicate]; omega)
  rw [hch]
  refine ⟨by rw [List.length_replicate], rfl, ?_⟩
  simp only [List.length_cons, List.length_nil]
  omega

/-- C7 amended: for every 6,000-character input, the Chunker with the
2,500-character budget yields at least 2 chunks whose concatenation equals
the original text; the exact chunk count depends on the line structure of
the input, not only on its total length (a single-line input yields 2
chunks, not 3). -/
theorem chunks_of_6000_char_input (t : List Char) (h : t.length = 6000) :
    (chunker 2500 (readlines t)).flatten = t ∧
    2 ≤ (chunker 2500 (readlines t)).length := by
  have hjoin : (chunker 2500 (readlines t)).flatten = t := by
    rw [chunker, chunkLoop_flatten]
    simpa using readlines_flatten t
  refine ⟨hjoin, ?_⟩
  by_contra hlt
  push_neg at hlt
  have hne : readlines t ≠ [] := by
    intro hcon
    rw [readlines_eq_nil t hcon] at h
    simp at h
  have hpos : 0 < (chunker 2500 (readlines t)).length :=
    List.length_pos.mpr (chunkLoop_ne_nil 2500 (readlines t) [])
  have hone : (chunker 2500 (readlines t)).length = 1 := by omega
  obtain ⟨c, hc⟩ := List.length_eq_one.mp hone
  have hcb : c.length ≤ 2500 :=
    chunkLoop_singleton 2500 (readlines t) [] c hne hc
  rw [hc] at hjoin
  simp at hjoin
  rw [hjoin] at hcb
  omega

theorem chunks_of_6000_char_input_witness :
    (chunker 2500 (readlines (List.replicate 6000 'a'))).flatten =
      List.replicate 6000 'a' ∧
    2 ≤ (chunker 2500 (readlines (List.replicate 6000 'a'))).length :=
  chunks_of_6000_char_input (List.replicate 6000 'a') (by rw [List.length_replicate])

theorem synthesizeChunks_foldl (speak : List Char → List Nat)
    (cs : List (List Char)) (a : List Nat) :
    cs.foldl (fun stream c => stream ++ speak c) a = a ++ (cs.map speak).flatten := by
  induction cs generalizing a with
  | nil => simp
  | cons c rest ih => simp [ih (a ++ speak c)]

theorem synthesizeChunks_eq (speak : List Char → List Nat) (cs : List (List Char)) :
    synthesizeChunks speak cs = (cs.map speak).flatten := by
  rw [synthesizeChunks, synthesizeChunks_foldl]
  rfl

/-- C10: for every non-empty input whose first line alone exceeds the chunk
budget, the Chunker emits the empty string as its first chunk — the guard
flushes the still-empty accumulator before the oversized line is appended —
and the per-chunk synthesis loop of `process_single_file` does synthesize
that empty unit: the audio stream begins with the synthesis of the empty
chunk. -/
theorem oversized_first_line_empty_first_chunk (budget : Nat) (t l : List Char)
    (rest : List (List Char)) (speak : List Char → List Nat)
    (h : readlines t = l :: rest) (hl : budget < l.length) :
    (chunker budget (readlines t)).head? = some [] ∧
    [] ∈ chunker budget (readlines t) ∧
    synthesizeChunks speak (chunker budget (readlines t)) =
      speak [] ++ ((chunkLoop budget rest l).map speak).flatten := by
  have hexp : chunker budget (readlines t) = [] :: chunkLoop budget rest l := by
    rw [h, chunker]
    simp only [chunkLoop, List.length_nil, Nat.zero_add]
    rw [if_pos hl]
  refine ⟨by rw [hexp]; rfl, by rw [hexp]; exact List.mem_cons_self _ _, ?_⟩
  rw [hexp, synthesizeChunks_eq]
  simp

theorem oversized_first_line_empty_first_chunk_witness :
    (chunker 2 (readlines ['a', 'a', 'a'])).head? = some [] ∧
    [] ∈ chunker 2 (readlines ['a', 'a', 'a']) ∧
    synthesizeChunks (fun c => [c.length]) (chunker 2 (readlines ['a', 'a', 'a'])) =
      (fun c : List Char => [c.length]) [] ++
        ((chunkLoop 2 [] ['a', 'a', 'a']).map (fun c => [c.length])).flatten :=
  oversized_first_line_empty_first_chunk 2 ['a', 'a', 'a'] ['a', 'a', 'a'] []
    (fun c => [c.length]) (by decide) (by decide)
